import Mathlib

/-!
Verification development for the BrowserFriend session-lifecycle and
process-supervision core.

The definitions below are a shallow embedding of the Python sources
`browserfriend/database.py` and `browserfriend/cli.py`:

* timestamps are modelled as integer seconds together with a Boolean
  timezone-awareness flag (Python `datetime` objects are either naive or
  timezone-aware; every naive value in this code path is a UTC reading, so
  `replace(tzinfo=timezone.utc)` only flips the flag and keeps the instant);
* `uuid4()` session-id generation is modelled by an explicitly supplied
  fresh identifier (a `Nat`), with freshness stated as a hypothesis where a
  theorem needs it;
* the SQLAlchemy queries (`filter` / `order_by(... desc()).first()`) are
  modelled by list filtering and a deterministic maximum selection, with
  SQLite's NULLS-LAST behaviour for descending `ORDER BY`;
* external effects (the OS process table, `psutil`, `json.loads`, the
  collaborator steps of the watcher's shutdown sequence) are modelled by
  explicit oracle values describing each call's outcome.
-/

/-- A timestamp: integer seconds since the epoch plus a timezone-awareness
flag (`aware = true` models a `datetime` carrying `tzinfo`). -/
structure TS where
  t : Int
  aware : Bool
deriving DecidableEq

/-- `BrowsingSession` row from `database.py`: id, owner email, start time,
optional end time, optional duration (seconds).  Columns not read by the
embedded operations are omitted. -/
structure BSession where
  session_id : Nat
  user_email : String
  start_time : TS
  end_time : Option TS
  duration : Option Int
deriving DecidableEq

/-- `PageVisit` row from `database.py`, restricted to the columns the
session state machine reads (`session_id`, `end_time`). -/
structure PVisit where
  id : Nat
  session_id : Nat
  end_time : Option TS
deriving DecidableEq

/-- The session store state: the `browsing_sessions` and `page_visits`
tables. -/
structure DB where
  sessions : List BSession
  visits : List PVisit
deriving DecidableEq

/-- Timezone normalisation performed by `BrowsingSession.calculate_duration`
(database.py lines 87-91): when exactly one of the two datetimes is naive it
is relabelled as UTC (`replace(tzinfo=timezone.utc)`), which keeps the
instant and sets the awareness flag. -/
def tzNorm (e st : TS) : TS × TS :=
  if e.aware ∧ ¬ st.aware then (e, { st with aware := true })
  else if ¬ e.aware ∧ st.aware then ({ e with aware := true }, st)
  else (e, st)

/-- `BrowsingSession.calculate_duration` (database.py lines 82-94): when an
end time is present, normalise and set `duration := end - start`; otherwise
leave the row unchanged. -/
def calcDuration (s : BSession) : BSession :=
  match s.end_time with
  | some e =>
    let p := tzNorm e s.start_time
    { s with duration := some (p.1.t - p.2.t) }
  | none => s

/-- The data-model invariant of §3 of the spec: duration is set iff the end
timestamp is set, and when set it equals end minus start and is not
negative. -/
def SessInv (s : BSession) : Prop :=
  match s.end_time, s.duration with
  | none, none => True
  | some e, some d => d = e.t - s.start_time.t ∧ 0 ≤ d
  | _, _ => False

/-- Strictly-later comparison backing `ORDER BY start_time DESC` over
sessions (`start_time` is NOT NULL). -/
def laterStart (a b : BSession) : Bool :=
  b.start_time.t < a.start_time.t

/-- `ORDER BY start_time DESC ... first()` over a session list: the
element with the maximal start time (head of the list wins ties, a
deterministic refinement of the SQL order). -/
def firstByStartDesc : List BSession → Option BSession
  | [] => none
  | s :: rest =>
    match firstByStartDesc rest with
    | none => some s
    | some a => if laterStart a s then some a else some s

/-- Strictly-later comparison backing `ORDER BY end_time DESC` over visits:
SQLite sorts NULL as the smallest value, so descending order puts rows
with a NULL `end_time` last. -/
def visitAfter (a b : PVisit) : Bool :=
  match a.end_time, b.end_time with
  | some x, some y => y.t < x.t
  | some _, none => true
  | none, _ => false

/-- `ORDER BY end_time DESC ... first()` over a visit list (NULLS last;
head of the list wins ties). -/
def firstByEndDesc : List PVisit → Option PVisit
  | [] => none
  | v :: rest =>
    match firstByEndDesc rest with
    | none => some v
    | some a => if visitAfter a v then some a else some v

/-- `get_current_session` (database.py lines 202-218): the most recently
started session of the owner that has no end time. -/
def currentSession (db : DB) (owner : String) : Option BSession :=
  firstByStartDesc
    (db.sessions.filter (fun s => s.user_email == owner && s.end_time.isNone))

/-- `create_new_session` (database.py lines 310-328): unconditionally open a
new session.  `now` is `datetime.now(timezone.utc)` (aware) and `freshId`
stands for the generated `uuid4` string. -/
def create_new_session (now : Int) (freshId : Nat) (owner : String) (db : DB) :
    BSession × DB :=
  let s : BSession :=
    { session_id := freshId
      user_email := owner
      start_time := ⟨now, true⟩
      end_time := none
      duration := none }
  (s, { db with sessions := db.sessions ++ [s] })

/-- `get_or_create_active_session` (database.py lines 221-307): return the
owner's open session unless its last recorded activity is older than the
inactivity timeout; a stale session is closed (end := now, duration
computed) and a fresh one is opened. -/
def get_or_create_active_session (now : Int) (freshId : Nat) (owner : String)
    (tmoMin : Int) (db : DB) : BSession × DB :=
  match currentSession db owner with
  | none => create_new_session now freshId owner db
  | some cur =>
    let lastVisit :=
      firstByEndDesc (db.visits.filter (fun v => v.session_id == cur.session_id))
    let cutoff : Int := now - tmoMin * 60
    let lastActivity : Option TS :=
      match lastVisit with
      | some v =>
        match v.end_time with
        | some ts => some (if ts.aware then ts else { ts with aware := true })
        | none => none
      | none => none
    match lastActivity with
    | some la =>
      if la.t < cutoff then
        let closedCur := calcDuration { cur with end_time := some ⟨now, true⟩ }
        let f := fun s => if s.session_id == cur.session_id then closedCur else s
        let db1 : DB := { db with sessions := db.sessions.map f }
        create_new_session now freshId owner db1
      else (cur, db)
    | none => (cur, db)

/-- `end_session` (database.py lines 331-348): look the session up by id;
when found, set `end_time := now`, recompute the duration and return the
row; when the id is unknown return `None`.  Note the source has no check
that the session is still open. -/
def end_session (now : Int) (sid : Nat) (db : DB) : Option BSession × DB :=
  match db.sessions.find? (fun s => s.session_id == sid) with
  | some bs =>
    let updated := calcDuration { bs with end_time := some ⟨now, true⟩ }
    let f := fun s => if s.session_id == sid then updated else s
    (some updated, { db with sessions := db.sessions.map f })
  | none => (none, db)

/-! ### Duration-string parsing (`parse_duration`, cli.py lines 265-299)

Python runs `re.match(r"^(\d+)([mhd])$", duration_str.strip().lower())` and
rejects a parsed value `<= 0`.  Strings are modelled as `List Char`.
Default `str.strip()` removes exactly the characters for which
`str.isspace()` holds, and `\d` / `int()` accept every Unicode decimal
digit (category Nd, each carrying a decimal value); both classes are
embedded in full below, as extracted from the CPython runtime's Unicode
database. -/

/-- The whitespace removed by Python's default `str.strip()`: exactly the
characters for which `str.isspace()` is true (ASCII whitespace, the
separator controls U+001C-U+001F, NEL, NBSP, and the Unicode space and
line/paragraph separators). -/
def isPySpace (c : Char) : Bool :=
  c = ' ' || c = '\t' || c = '\n' || c = '\r' || c = '\x0b' || c = '\x0c' ||
  (0x1c ≤ c.toNat && c.toNat ≤ 0x1f) || c.toNat = 0x85 || c.toNat = 0xa0 ||
  c.toNat = 0x1680 || (0x2000 ≤ c.toNat && c.toNat ≤ 0x200a) ||
  c.toNat = 0x2028 || c.toNat = 0x2029 || c.toNat = 0x202f ||
  c.toNat = 0x205f || c.toNat = 0x3000

/-- `str.strip()`: drop leading and trailing whitespace. -/
def pyStrip (l : List Char) : List Char :=
  ((l.dropWhile isPySpace).reverse.dropWhile isPySpace).reverse

/-- The maximal contiguous runs of Unicode decimal digits (category Nd),
from the CPython runtime's Unicode database.  Every run's length is a
multiple of ten and starts at a character of decimal value zero, so a
digit's decimal value is its offset into its run modulo ten. -/
def ndRanges : List (Nat × Nat) := [
  (0x30, 0x39), (0x660, 0x669), (0x6f0, 0x6f9), (0x7c0, 0x7c9),
  (0x966, 0x96f), (0x9e6, 0x9ef), (0xa66, 0xa6f), (0xae6, 0xaef),
  (0xb66, 0xb6f), (0xbe6, 0xbef), (0xc66, 0xc6f), (0xce6, 0xcef),
  (0xd66, 0xd6f), (0xde6, 0xdef), (0xe50, 0xe59), (0xed0, 0xed9),
  (0xf20, 0xf29), (0x1040, 0x1049), (0x1090, 0x1099), (0x17e0, 0x17e9),
  (0x1810, 0x1819), (0x1946, 0x194f), (0x19d0, 0x19d9), (0x1a80, 0x1a89),
  (0x1a90, 0x1a99), (0x1b50, 0x1b59), (0x1bb0, 0x1bb9), (0x1c40, 0x1c49),
  (0x1c50, 0x1c59), (0xa620, 0xa629), (0xa8d0, 0xa8d9), (0xa900, 0xa909),
  (0xa9d0, 0xa9d9), (0xa9f0, 0xa9f9), (0xaa50, 0xaa59), (0xabf0, 0xabf9),
  (0xff10, 0xff19), (0x104a0, 0x104a9), (0x10d30, 0x10d39),
  (0x11066, 0x1106f), (0x110f0, 0x110f9), (0x11136, 0x1113f),
  (0x111d0, 0x111d9), (0x112f0, 0x112f9), (0x11450, 0x11459),
  (0x114d0, 0x114d9), (0x11650, 0x11659), (0x116c0, 0x116c9),
  (0x11730, 0x11739), (0x118e0, 0x118e9), (0x11950, 0x11959),
  (0x11c50, 0x11c59), (0x11d50, 0x11d59), (0x11da0, 0x11da9),
  (0x16a60, 0x16a69), (0x16ac0, 0x16ac9), (0x16b50, 0x16b59),
  (0x1d7ce, 0x1d7ff), (0x1e140, 0x1e149), (0x1e2f0, 0x1e2f9),
  (0x1e950, 0x1e959), (0x1fbf0, 0x1fbf9)]

/-- Decimal value of a Unicode decimal digit, `none` for any other
character: the class matched by `\d` and consumed by `int()`. -/
def digitVal? (c : Char) : Option Nat :=
  (ndRanges.find? (fun r => r.1 ≤ c.toNat && c.toNat ≤ r.2)).map
    (fun r => (c.toNat - r.1) % 10)

/-- Membership in the `\d` class (any Unicode decimal digit). -/
def isPyDigit (c : Char) : Bool :=
  (digitVal? c).isSome

/-- `str.lower()`, modelled character-wise by the ASCII case mapping.
This is verdict- and value-faithful for the duration regex over the whole
Unicode range: the only characters whose Python `lower()` lands in
`{m, h, d}` are `M`, `H` and `D`; `lower()` never turns a non-digit into a
decimal digit; decimal digits and whitespace are fixed points of
`lower()`; and the single one-to-many lowercase mapping (U+0130) produces
only characters matching neither `\d` nor `[mhd]`, exactly like its
unlowered form, so the match outcome and the extracted digits agree with
Python on every string. -/
def asciiLower (c : Char) : Char :=
  if 'A' ≤ c ∧ c ≤ 'Z' then Char.ofNat (c.toNat + 32) else c

/-- `duration_str.strip().lower()`. -/
def stripLower (l : List Char) : List Char :=
  (pyStrip l).map asciiLower

/-- Split a list into its leading part and last element. -/
def splitLast (l : List Char) : Option (List Char × Char) :=
  match l.reverse with
  | [] => none
  | u :: rp => some (rp.reverse, u)

/-- `int(match.group(1))` on an all-digit group: each digit contributes
its Unicode decimal value. -/
def natOfDigits (l : List Char) : Nat :=
  l.foldl (fun a c => a * 10 + (digitVal? c).getD 0) 0

/-- The regex `^(\d+)([mhd])$` as a matcher: a non-empty run of Unicode
decimal digits followed by exactly one unit letter and nothing else. -/
def matchDur (r : List Char) : Option (Nat × Char) :=
  match splitLast r with
  | some (ds, u) =>
    if ds ≠ [] ∧ ds.all isPyDigit = true ∧ (u = 'm' ∨ u = 'h' ∨ u = 'd')
    then some (natOfDigits ds, u) else none
  | none => none

/-- `multipliers = {"m": 60, "h": 3600, "d": 86400}` (only ever applied to a
matched unit letter). -/
def unitMult (u : Char) : Nat :=
  if u = 'm' then 60 else if u = 'h' then 3600 else 86400

/-- `parse_duration` (cli.py lines 265-299): strip and lowercase, match the
regex, reject a non-positive value, otherwise scale by the unit.  A
`ValueError` is modelled as `Except.error ()`. -/
def parse_duration (s : List Char) : Except Unit Nat :=
  match matchDur (stripLower s) with
  | some (v, u) => if v ≤ 0 then Except.error () else Except.ok (v * unitMult u)
  | none => Except.error ()

/-- The claim's accepted surface, read off the spec sentence: after
stripping surrounding whitespace and lowercasing (case-insensitivity), the
string is a decimal representation of a positive integer `n` immediately
followed by a single unit letter. -/
def DurShape (s : List Char) (n : Nat) (u : Char) : Prop :=
  ∃ ds : List Char,
    stripLower s = ds ++ [u] ∧ ds ≠ [] ∧ ds.all isPyDigit = true ∧
    natOfDigits ds = n ∧ 0 < n ∧ (u = 'm' ∨ u = 'h' ∨ u = 'd')

/-! ### Command-line marker identity check (`_is_server_running`, cli.py
lines 184-232) -/

/-- Whether `p` occurs at the head of `l`. -/
def seqAt : List Char → List Char → Bool
  | [], _ => true
  | _ :: _, [] => false
  | a :: as, b :: bs => a == b && seqAt as bs

/-- Whether `p` occurs contiguously anywhere in the second list (Python's
`in` on strings). -/
def containsSeq (p : List Char) : List Char → Bool
  | [] => p.isEmpty
  | c :: rest => seqAt p (c :: rest) || containsSeq p rest

/-- `" ".join(proc.cmdline())`. -/
def joinWithSpace : List (List Char) → List Char
  | [] => []
  | [a] => a
  | a :: b :: rest => a ++ ' ' :: joinWithSpace (b :: rest)

/-- Joined and lowercased invocation command line. -/
def joinLower (args : List (List Char)) : List Char :=
  (joinWithSpace args).map asciiLower

/-- The application markers of cli.py line 209: `"browserfriend" in cmdline
or "main.py" in cmdline or "uvicorn" in cmdline`. -/
def hasMarker (l : List Char) : Bool :=
  containsSeq ("browserfriend".toList) l ||
  containsSeq ("main.py".toList) l ||
  containsSeq ("uvicorn".toList) l

/-- Registry Record (the JSON `server.pid` file; cli.py lines 146-163 and
spec §6): all fields optional because a parsed JSON dict may omit any of
them and the legacy decoding fills only `pid`. -/
structure PidData where
  pid : Option Int
  session_id : Option Nat
  started_at : Option Int
  duration_seconds : Option Nat
  auto_stop_at : Option Int
deriving DecidableEq

/-- Outcome of `proc.cmdline()`: a readable argument vector, a
`psutil.AccessDenied`, or a `psutil.ZombieProcess` raised during the
read. -/
inductive CmdlineRes
  | args (l : List (List Char))
  | accessDenied
  | zombieRaised
deriving DecidableEq

/-- One OS snapshot of a pid, as observed through `psutil.Process`:
whether the constructor succeeds (`found`; `NoSuchProcess`/`AccessDenied`
there both make it false), `is_running()`, whether the status is
`STATUS_ZOMBIE`, and the `cmdline()` outcome. -/
structure ProcSnapshot where
  found : Bool
  running : Bool
  zombie : Bool
  cmdline : CmdlineRes

/-- The Boolean result of `_is_server_running` (cli.py lines 184-232):
the process must be found, running and not a zombie; a readable command
line must carry a marker; an unreadable command line is conservatively
trusted. -/
def aliveCheck (p : ProcSnapshot) : Bool :=
  p.found && p.running && !p.zombie &&
    (match p.cmdline with
     | CmdlineRes.args l => hasMarker (joinLower l)
     | _ => true)

/-- The side-effect branch of `_is_server_running` (cli.py lines 210-218):
the PID file is deleted exactly when the process is live but its readable
command line carries no marker. -/
def staleDetected (p : ProcSnapshot) : Bool :=
  p.found && p.running && !p.zombie &&
    (match p.cmdline with
     | CmdlineRes.args l => !hasMarker (joinLower l)
     | _ => false)

/-- `_is_server_running(pid)` with its effect on the PID file: returns the
liveness verdict and the PID-file state after the call. -/
def is_server_running (p : ProcSnapshot) (pf : Option PidData) :
    Bool × Option PidData :=
  (aliveCheck p, if staleDetected p then none else pf)

/-! ### PID-file codec (`_read_pid_data`, cli.py lines 108-135)

`json.loads` and `int()` are external parsers; their outcomes on the file's
raw text are supplied as oracle values.  `jsonRes = none` models a
`JSONDecodeError`, `intRes = none` a `ValueError` from `int(raw)`. -/

/-- Shape of a successful `json.loads` result: a dict (projected to the
Registry Record fields), a bare integer, or any other JSON value. -/
inductive JVal
  | jdict (d : PidData)
  | jint (v : Int)
  | jother
deriving DecidableEq

/-- Outcomes of the two parsers applied to the raw file text. -/
structure RawRead where
  jsonRes : Option JVal
  intRes : Option Int
deriving DecidableEq

/-- `_read_pid_data` (cli.py lines 108-135): `none` input models a missing
file (or an `OSError` while reading).  A JSON dict is returned as-is; any
non-dict JSON result is treated like a decode failure and the raw text is
re-parsed as a legacy bare integer; if that also fails, return `None`. -/
def read_pid_data : Option RawRead → Option PidData
  | none => none
  | some r =>
    match r.jsonRes with
    | some (JVal.jdict d) => some d
    | _ =>
      match r.intRes with
      | some v => some { pid := some v, session_id := none, started_at := none,
                         duration_seconds := none, auto_stop_at := none }
      | none => none

/-! ### The `start` operation (cli.py lines 438-651)

The flow is modelled over a `World` (PID file, monitor file, spawned
processes, session store).  The OS is an oracle: `os` gives the snapshot
used by the already-running pre-check, `os2` the snapshot taken at the
settle re-check two seconds after the spawn.  Console output, logging and
`init_database` have no modelled effect. -/

/-- Cross-process state touched by the CLI: the Registry Record
(`server.pid`), the Monitor Record (`monitor.pid`), a ghost log of the
processes spawned, and the session store. -/
structure World where
  pidFile : Option PidData
  monitorFile : Option Int
  spawned : List Int
  db : DB

/-- Inputs and oracle outcomes of one run of `start`. -/
structure StartEnv where
  os : Int → ProcSnapshot
  os2 : Int → ProcSnapshot
  now : Int
  now2 : Int
  freshSid : Nat
  userEmail : Option String
  spawnRaises : Bool
  spawnPid : Int
  monitorPid : Int

/-- Exit paths of `start`. -/
inductive StartOutcome
  | alreadyRunning
  | invalidDuration
  | noUser
  | spawnFailed
  | dieInSettle
  | started (sid : Nat)
deriving DecidableEq

/-- cli.py lines 535-651: create the session, spawn the server, write the
Registry Record, re-check liveness after the settle wait, roll back on
failure, and finally spawn the Duration Monitor when a duration was
given. -/
def startSpawn (env : StartEnv) (dsec : Option Nat) (em : String) (w : World) :
    StartOutcome × World :=
  let created := create_new_session env.now env.freshSid em w.db
  let sid := created.1.session_id
  let w1 : World := { w with db := created.2 }
  if env.spawnRaises then
    let e := end_session env.now sid w1.db
    (StartOutcome.spawnFailed, { w1 with db := e.2 })
  else
    let pd : PidData :=
      { pid := some env.spawnPid, session_id := some sid,
        started_at := some env.now, duration_seconds := dsec,
        auto_stop_at := dsec.map (fun d => env.now + (d : Int)) }
    let w2 : World :=
      { w1 with spawned := w1.spawned ++ [env.spawnPid], pidFile := some pd }
    let chk := is_server_running (env.os2 env.spawnPid) w2.pidFile
    if chk.1 then
      let w3 : World := { w2 with pidFile := chk.2 }
      match dsec with
      | some _ =>
        (StartOutcome.started sid,
         { w3 with monitorFile := some env.monitorPid,
                   spawned := w3.spawned ++ [env.monitorPid] })
      | none => (StartOutcome.started sid, w3)
    else
      let e := end_session env.now2 sid w2.db
      (StartOutcome.dieInSettle, { w2 with pidFile := none, db := e.2 })

/-- cli.py lines 498-533: the owner check, then the speculative session
creation and the spawn. -/
def startWithUser (env : StartEnv) (dsec : Option Nat) (w : World) :
    StartOutcome × World :=
  match env.userEmail with
  | none => (StartOutcome.noUser, w)
  | some em => startSpawn env dsec em w

/-- cli.py lines 484-496: duration parsing, reached after the
already-running pre-check; a `ValueError` exits before anything is
created. -/
def startCore (env : StartEnv) (durArg : Option (List Char)) (w : World) :
    StartOutcome × World :=
  match durArg with
  | some ds =>
    match parse_duration ds with
    | Except.error _ => (StartOutcome.invalidDuration, w)
    | Except.ok v => startWithUser env (some v) w
  | none => startWithUser env none w

/-- `start` (cli.py lines 438-651), beginning with the already-running
pre-check of lines 470-482: `if pid and _is_server_running(pid)` exits,
otherwise a recorded-but-dead pid's Registry Record is deleted before the
run proceeds (`if pid: _delete_pid()`; a recorded pid of 0 is falsy in
Python and skips both). -/
def start (env : StartEnv) (durArg : Option (List Char)) (w : World) :
    StartOutcome × World :=
  match w.pidFile.bind (fun d => d.pid) with
  | some p =>
    if p = 0 then startCore env durArg w
    else
      let res := is_server_running (env.os p) w.pidFile
      if res.1 then (StartOutcome.alreadyRunning, { w with pidFile := res.2 })
      else startCore env durArg { w with pidFile := none }
  | none => startCore env durArg w

/-! ### The Duration Monitor's shutdown sequence (cli.py lines 735-798)

The watcher script runs, in order: (1) stop the server and unlink the
Registry Record, each wrapped in its own `try`; (2) end the session in its
own `try`; (3)-(5) generate insights, render and send the report, persist
the report — all three inside ONE `try` block, where the persist is
additionally gated on the send reporting success; finally it unlinks its
own Monitor Record unconditionally.  Each collaborator call's outcome is an
oracle flag. -/

/-- Oracle outcomes for one run of the shutdown sequence: which collaborator
calls raise, and whether the send reports success. -/
structure MonitorEnv where
  stopRaises : Bool
  endRaises : Bool
  genRaises : Bool
  renderRaises : Bool
  sendRaises : Bool
  sendResult : Bool
  saveRaises : Bool
deriving DecidableEq

/-- Which steps of the shutdown sequence were entered, and whether the
Monitor Record was removed. -/
structure MonitorTrace where
  stopAttempted : Bool
  endAttempted : Bool
  genAttempted : Bool
  renderAttempted : Bool
  sendAttempted : Bool
  saveAttempted : Bool
  monitorFileRemoved : Bool
deriving DecidableEq

/-- The single `try` block of cli.py lines 772-791 covering steps 3-5: an
exception anywhere abandons the rest of the block (it is caught and only
logged), and `save_dashboard` runs only when `send_dashboard_email`
returned truthy.  A raise from the save itself is caught by the same
handler after the step was already entered. -/
def shutdownReportBlock (env : MonitorEnv) (tr : MonitorTrace) : MonitorTrace :=
  let tr1 := { tr with genAttempted := true }
  if env.genRaises then tr1
  else
    let tr2 := { tr1 with renderAttempted := true }
    if env.renderRaises then tr2
    else
      let tr3 := { tr2 with sendAttempted := true }
      if env.sendRaises then tr3
      else if env.sendResult then { tr3 with saveAttempted := true } else tr3

/-- The full shutdown sequence of the watcher script (cli.py lines
735-798): steps 1 and 2 are entered unconditionally (each has its own
exception guard, so `stopRaises`/`endRaises` cannot propagate), then the
steps 3-5 block, then the unconditional Monitor Record unlink. -/
def monitorShutdown (env : MonitorEnv) : MonitorTrace :=
  let tr0 : MonitorTrace := ⟨false, false, false, false, false, false, false⟩
  let tr1 := { tr0 with stopAttempted := true }
  let tr2 := { tr1 with endAttempted := true }
  let tr3 := shutdownReportBlock env tr2
  { tr3 with monitorFileRemoved := true }

/-! ### Helper lemmas -/

theorem splitLast_append (ds : List Char) (u : Char) :
    splitLast (ds ++ [u]) = some (ds, u) := by
  simp [splitLast]

theorem splitLast_eq_append {l ds : List Char} {u : Char}
    (h : splitLast l = some (ds, u)) : l = ds ++ [u] := by
  unfold splitLast at h
  cases hr : l.reverse with
  | nil => rw [hr] at h; exact absurd h (by simp)
  | cons u2 rp =>
    rw [hr] at h
    simp only [Option.some.injEq, Prod.mk.injEq] at h
    obtain ⟨h1, h2⟩ := h
    have : l.reverse.reverse = (u2 :: rp).reverse := by rw [hr]
    simpa [h1, h2] using this

theorem normAware_t (ts : TS) :
    (if ts.aware then ts else { ts with aware := true }).t = ts.t := by
  by_cases h : ts.aware <;> simp [h]

theorem tzNorm_fst_t (e st : TS) : (tzNorm e st).1.t = e.t := by
  unfold tzNorm; split <;> try split
  all_goals rfl

theorem tzNorm_snd_t (e st : TS) : (tzNorm e st).2.t = st.t := by
  unfold tzNorm; split <;> try split
  all_goals rfl

theorem tzNorm_aware_eq (e st : TS) :
    (tzNorm e st).1.aware = (tzNorm e st).2.aware ∨ (e.aware = st.aware) := by
  unfold tzNorm
  by_cases h1 : e.aware ∧ ¬ st.aware
  · simp [h1]
  · by_cases h2 : ¬ e.aware ∧ st.aware
    · simp [h1, h2]
    · right
      cases he : e.aware <;> cases hs : st.aware <;> simp_all

theorem calcDuration_of_end {s : BSession} {e : TS} (h : s.end_time = some e) :
    calcDuration s = { s with duration := some (e.t - s.start_time.t) } := by
  unfold calcDuration
  rw [h]
  simp [tzNorm_fst_t, tzNorm_snd_t]

theorem firstByStartDesc_mem {l : List BSession} {s : BSession}
    (h : firstByStartDesc l = some s) : s ∈ l := by
  induction l with
  | nil => exact absurd h (by simp [firstByStartDesc])
  | cons a rest ih =>
    unfold firstByStartDesc at h
    cases hr : firstByStartDesc rest with
    | none => rw [hr] at h; simp at h; simp [h]
    | some b =>
      rw [hr] at h
      simp only at h
      split at h
      · simp at h; exact List.mem_cons_of_mem a (ih (h ▸ hr))
      · simp at h; simp [h]

theorem firstByEndDesc_mem {l : List PVisit} {v : PVisit}
    (h : firstByEndDesc l = some v) : v ∈ l := by
  induction l with
  | nil => exact absurd h (by simp [firstByEndDesc])
  | cons a rest ih =>
    unfold firstByEndDesc at h
    cases hr : firstByEndDesc rest with
    | none => rw [hr] at h; simp at h; simp [h]
    | some b =>
      rw [hr] at h
      simp only at h
      split at h
      · simp at h; exact List.mem_cons_of_mem a (ih (h ▸ hr))
      · simp at h; simp [h]

theorem currentSession_spec {db : DB} {owner : String} {c : BSession}
    (h : currentSession db owner = some c) :
    c ∈ db.sessions ∧ c.user_email = owner ∧ c.end_time = none := by
  have hm := firstByStartDesc_mem h
  rw [List.mem_filter] at hm
  obtain ⟨hmem, hp⟩ := hm
  simp only [Bool.and_eq_true, beq_iff_eq, Option.isNone_iff_eq_none] at hp
  exact ⟨hmem, hp.1, hp.2⟩

theorem find?_append_last (l : List BSession) (s : BSession) (fid : Nat)
    (h : ∀ x ∈ l, x.session_id ≠ fid) (hs : s.session_id = fid) :
    (l ++ [s]).find? (fun x => x.session_id == fid) = some s := by
  induction l with
  | nil => simp [List.find?, hs]
  | cons a rest ih =>
    have ha : (a.session_id == fid) = false := by
      simp [h a (List.mem_cons_self a rest)]
    simp only [List.cons_append, List.find?]
    rw [ha]
    exact ih (fun x hx => h x (List.mem_cons_of_mem a hx))

theorem parse_ok_iff (s : List Char) (v : Nat) :
    parse_duration s = Except.ok v ↔
      ∃ n u, DurShape s n u ∧ v = n * unitMult u := by
  constructor
  · intro h
    unfold parse_duration at h
    cases hm : matchDur (stripLower s) with
    | none => rw [hm] at h; exact absurd h (by simp)
    | some p =>
      obtain ⟨v0, u⟩ := p
      rw [hm] at h
      simp only at h
      split at h
      · exact absurd h (by simp)
      · rename_i hle
        simp only [Except.ok.injEq] at h
        unfold matchDur at hm
        cases hsl : splitLast (stripLower s) with
        | none => rw [hsl] at hm; exact absurd hm (by simp)
        | some q =>
          obtain ⟨ds, u2⟩ := q
          rw [hsl] at hm
          simp only at hm
          split at hm
          · rename_i hguard
            simp only [Option.some.injEq, Prod.mk.injEq] at hm
            obtain ⟨hv0, hu⟩ := hm
            have hseq := splitLast_eq_append hsl
            have hpos : 0 < v0 := Nat.lt_of_not_le hle
            refine ⟨v0, u, ⟨ds, ?_, hguard.1, hguard.2.1, ?_, hpos, ?_⟩, h.symm⟩
            · rw [hseq, hu]
            · exact hv0
            · rw [← hu]; exact hguard.2.2
          · exact absurd hm (by simp)
  · rintro ⟨n, u, ⟨ds, hseq, hne, hdig, hnat, hpos, hunit⟩, hv⟩
    unfold parse_duration matchDur
    rw [hseq, splitLast_append]
    simp only
    rw [if_pos ⟨hne, hdig, hunit⟩, hnat]
    simp only
    rw [if_neg (Nat.not_le.mpr hpos), hv]

theorem parse_error_of_no_shape (s : List Char)
    (h : ¬ ∃ n u, DurShape s n u) : parse_duration s = Except.error () := by
  cases hp : parse_duration s with
  | ok v =>
    obtain ⟨n, u, hsh, _⟩ := (parse_ok_iff s v).mp hp
    exact absurd ⟨n, u, hsh⟩ h
  | error e => cases e; rfl

theorem startCore_parse_error (env : StartEnv) (w : World) (s : List Char)
    (hp : parse_duration s = Except.error ()) :
    startCore env (some s) w = (StartOutcome.invalidDuration, w) := by
  simp only [startCore, hp]

theorem getOrCreate_recent (db : DB) (owner : String) (now tmo : Int)
    (fid : Nat) (cur : BSession) (v : PVisit) (ts : TS)
    (hcur : currentSession db owner = some cur)
    (hlv : firstByEndDesc
      (db.visits.filter (fun w => w.session_id == cur.session_id)) = some v)
    (hend : v.end_time = some ts)
    (hrec : now - tmo * 60 ≤ ts.t) :
    get_or_create_active_session now fid owner tmo db = (cur, db) := by
  simp only [get_or_create_active_session, hcur, hlv, hend, normAware_t]
  rw [if_neg (not_lt.mpr hrec)]

theorem sessInv_open (fid : Nat) (em : String) (now : Int) :
    SessInv ⟨fid, em, ⟨now, true⟩, none, none⟩ :=
  trivial

theorem sessInv_closed (s : BSession) (now : Int) (h : s.start_time.t ≤ now) :
    SessInv (calcDuration { s with end_time := some ⟨now, true⟩ }) := by
  rw [calcDuration_of_end (e := ⟨now, true⟩) rfl]
  exact ⟨rfl, show (0 : Int) ≤ now - s.start_time.t by omega⟩

theorem getOrCreate_inv (now : Int) (fid : Nat) (owner : String) (tmo : Int)
    (db : DB)
    (hInv : ∀ s ∈ db.sessions, SessInv s)
    (hstart : ∀ s ∈ db.sessions, s.start_time.t ≤ now) :
    SessInv (get_or_create_active_session now fid owner tmo db).1 ∧
    ∀ s ∈ (get_or_create_active_session now fid owner tmo db).2.sessions,
      SessInv s := by
  cases hcur : currentSession db owner with
  | none =>
    simp only [get_or_create_active_session, hcur]
    refine ⟨sessInv_open fid owner now, ?_⟩
    intro s hs
    simp only [create_new_session, List.mem_append, List.mem_singleton] at hs
    rcases hs with hs | hs
    · exact hInv s hs
    · rw [hs]; exact sessInv_open fid owner now
  | some cur =>
    have hcs := currentSession_spec hcur
    have hcurInv : SessInv cur := hInv cur hcs.1
    cases hlv : firstByEndDesc
        (db.visits.filter (fun w => w.session_id == cur.session_id)) with
    | none =>
      simp only [get_or_create_active_session, hcur, hlv]
      exact ⟨hcurInv, hInv⟩
    | some v =>
      cases hve : v.end_time with
      | none =>
        simp only [get_or_create_active_session, hcur, hlv, hve]
        exact ⟨hcurInv, hInv⟩
      | some ts =>
        by_cases hst : ts.t < now - tmo * 60
        · have hred : get_or_create_active_session now fid owner tmo db =
              create_new_session now fid owner
                { db with sessions := db.sessions.map (fun s =>
                    if s.session_id == cur.session_id
                    then calcDuration { cur with end_time := some ⟨now, true⟩ }
                    else s) } := by
            simp only [get_or_create_active_session, hcur, hlv, hve,
              normAware_t, hst, if_true]
          rw [hred]
          refine ⟨sessInv_open fid owner now, ?_⟩
          intro s hs
          simp only [create_new_session, List.mem_append, List.mem_singleton] at hs
          rcases hs with hs | hs
          · rw [List.mem_map] at hs
            obtain ⟨x, hx, hfx⟩ := hs
            by_cases hxid : (x.session_id == cur.session_id) = true
            · rw [if_pos hxid] at hfx
              rw [← hfx]
              exact sessInv_closed cur now (hstart cur hcs.1)
            · rw [if_neg hxid] at hfx
              rw [← hfx]
              exact hInv x hx
          · rw [hs]; exact sessInv_open fid owner now
        · have hnl : now - tmo * 60 ≤ ts.t := not_lt.mp hst
          rw [getOrCreate_recent db owner now tmo fid cur v ts hcur hlv hve hnl]
          exact ⟨hcurInv, hInv⟩

theorem endSession_inv (now : Int) (sid : Nat) (db : DB)
    (hInv : ∀ s ∈ db.sessions, SessInv s)
    (hstart : ∀ s ∈ db.sessions, s.start_time.t ≤ now) :
    (∀ x, (end_session now sid db).1 = some x → SessInv x) ∧
    ∀ s ∈ (end_session now sid db).2.sessions, SessInv s := by
  cases hf : db.sessions.find? (fun s => s.session_id == sid) with
  | none =>
    simp only [end_session, hf]
    exact ⟨fun x hx => absurd hx (by simp), hInv⟩
  | some bs =>
    have hmem := List.mem_of_find?_eq_some hf
    have hupd : SessInv (calcDuration { bs with end_time := some ⟨now, true⟩ }) :=
      sessInv_closed bs now (hstart bs hmem)
    simp only [end_session, hf]
    constructor
    · intro x hx
      simp only [Option.some.injEq] at hx
      rw [← hx]
      exact hupd
    · intro s hs
      rw [List.mem_map] at hs
      obtain ⟨x, hx, hfx⟩ := hs
      by_cases hxid : (x.session_id == sid) = true
      · rw [if_pos hxid] at hfx
        rw [← hfx]
        exact hupd
      · rw [if_neg hxid] at hfx
        rw [← hfx]
        exact hInv x hx

theorem endSession_closes_fresh (now : Int) (fid : Nat) (db : DB)
    (newS : BSession)
    (hfresh : ∀ s ∈ db.sessions, s.session_id ≠ fid)
    (hid : newS.session_id = fid) :
    (∀ s ∈ (end_session now fid
        ⟨db.sessions ++ [newS], db.visits⟩).2.sessions,
      s.session_id = fid → s.end_time = some ⟨now, true⟩) ∧
    (∃ s ∈ (end_session now fid
        ⟨db.sessions ++ [newS], db.visits⟩).2.sessions,
      s.session_id = fid) := by
  have hfind : (db.sessions ++ [newS]).find? (fun s => s.session_id == fid) =
      some newS := find?_append_last db.sessions newS fid hfresh hid
  simp only [end_session, hfind]
  constructor
  · intro s hs hsid
    rw [List.mem_map] at hs
    obtain ⟨x, hx, hfx⟩ := hs
    by_cases hxid : (x.session_id == fid) = true
    · rw [if_pos hxid] at hfx
      rw [← hfx]
      rw [calcDuration_of_end (e := ⟨now, true⟩) rfl]
    · rw [if_neg hxid] at hfx
      rw [← hfx] at hsid
      rcases List.mem_append.mp hx with hxl | hxr
      · exact absurd hsid (hfresh x hxl)
      · rw [List.mem_singleton] at hxr
        rw [hxr] at hxid
        exact absurd (by simp [hid]) hxid
  · refine ⟨calcDuration { newS with end_time := some ⟨now, true⟩ }, ?_, ?_⟩
    · rw [List.mem_map]
      refine ⟨newS, List.mem_append.mpr (Or.inr (List.mem_singleton.mpr rfl)), ?_⟩
      rw [if_pos (show (newS.session_id == fid) = true by simp [hid])]
    · rw [calcDuration_of_end (e := ⟨now, true⟩) rfl]
      exact hid

theorem startSpawn_dead (env : StartEnv) (dsec : Option Nat) (em : String)
    (w : World)
    (hsp : env.spawnRaises = false)
    (hdead : aliveCheck (env.os2 env.spawnPid) = false)
    (hfresh : ∀ s ∈ w.db.sessions, s.session_id ≠ env.freshSid) :
    (startSpawn env dsec em w).1 = StartOutcome.dieInSettle ∧
    (startSpawn env dsec em w).2.pidFile = none ∧
    (∀ s ∈ (startSpawn env dsec em w).2.db.sessions,
      s.session_id = env.freshSid → s.end_time = some ⟨env.now2, true⟩) ∧
    (∃ s ∈ (startSpawn env dsec em w).2.db.sessions,
      s.session_id = env.freshSid) := by
  have h := endSession_closes_fresh env.now2 env.freshSid w.db
    ⟨env.freshSid, em, ⟨env.now, true⟩, none, none⟩ hfresh rfl
  simp only [startSpawn, create_new_session, hsp, Bool.false_eq_true, if_false,
    is_server_running, hdead]
  exact ⟨trivial, trivial, h.1, h.2⟩

/-! ### Claim theorems -/

/-- Store with a single already-closed session (ended at t=100 with
duration 100), used to evaluate `end_session` on a non-open session. -/
def c1db : DB :=
  ⟨[⟨1, "a@example.com", ⟨0, true⟩, some ⟨100, true⟩, some 100⟩], []⟩

/-- Claim C1 says `end` on an already-closed session returns "not found"
(None) and never mutates the stored end time or duration.  Evaluating
`end_session` at t=200 on a session closed at t=100 shows the code instead
finds the row, overwrites its end time with 200, recomputes the duration to
200, and returns the mutated row; only a genuinely unknown id yields None
with no mutation. -/
theorem C1_end_session_reends_closed :
    (end_session 200 1 c1db).1 =
      some ⟨1, "a@example.com", ⟨0, true⟩, some ⟨200, true⟩, some 200⟩ ∧
    (end_session 200 1 c1db).2.sessions =
      [⟨1, "a@example.com", ⟨0, true⟩, some ⟨200, true⟩, some 200⟩] ∧
    (end_session 200 2 c1db).1 = none ∧
    (end_session 200 2 c1db).2 = c1db := by decide

/-- Claim C2 (counterexample): the claim says that when step 3 (generate
insights) raises, steps 4 (render+send) and 5 (persist) are still
attempted.  In the run where only the insight generation raises, neither
the render/send nor the persist step is entered. -/
theorem C2_counterexample :
    (monitorShutdown ⟨false, false, true, false, false, true, false⟩).renderAttempted
        = false ∧
    (monitorShutdown ⟨false, false, true, false, false, true, false⟩).sendAttempted
        = false ∧
    (monitorShutdown ⟨false, false, true, false, false, true, false⟩).saveAttempted
        = false := by decide

/-- Claim C2 (amended): steps 1 (stop server) and 2 (end session) are
individually guarded and attempted in every run, step 3 is always entered,
and the Monitor Record is removed in every run; but steps 3-5 form a single
best-effort block, so a raise in step 3 skips steps 4 and 5, a raise in the
render skips send and persist, and the persist runs only when the send
succeeds. -/
theorem C2_shutdown_block_structure (env : MonitorEnv) :
    (monitorShutdown env).stopAttempted = true ∧
    (monitorShutdown env).endAttempted = true ∧
    (monitorShutdown env).genAttempted = true ∧
    (monitorShutdown env).monitorFileRemoved = true ∧
    (monitorShutdown env).renderAttempted = !env.genRaises ∧
    (monitorShutdown env).sendAttempted = (!env.genRaises && !env.renderRaises) ∧
    (monitorShutdown env).saveAttempted =
      (!env.genRaises && !env.renderRaises && !env.sendRaises && env.sendResult) := by
  obtain ⟨a, b, c, d, e, f, g⟩ := env
  cases c <;> cases d <;> cases e <;> cases f <;>
    simp [monitorShutdown, shutdownReportBlock]

/-- Claim C6: a pid whose process is running but whose readable command
line carries none of the application markers is reported not-alive and its
Registry Record is deleted as a side effect; and the check reports alive
only when the process is found, running, not a zombie, and its command line
either carries a marker or could not be read due to permission denial (the
hypothesis `hcons` states the snapshot consistency that a
`ZombieProcess` raised during the command-line read only happens for a
process whose status is zombie, which the earlier status check already
rejects). -/
theorem C6_liveness_identity (p : ProcSnapshot) (pf : Option PidData)
    (hcons : p.cmdline = CmdlineRes.zombieRaised → p.zombie = true) :
    (∀ l, p.found = true → p.running = true → p.zombie = false →
      p.cmdline = CmdlineRes.args l → hasMarker (joinLower l) = false →
      is_server_running p pf = (false, none)) ∧
    ((is_server_running p pf).1 = true →
      p.found = true ∧ p.running = true ∧ p.zombie = false ∧
      ((∃ l, p.cmdline = CmdlineRes.args l ∧ hasMarker (joinLower l) = true) ∨
        p.cmdline = CmdlineRes.accessDenied)) := by
  constructor
  · intro l hf hr hz hc hm
    unfold is_server_running aliveCheck staleDetected
    rw [hf, hr, hz, hc]
    simp [hm]
  · intro h
    unfold is_server_running aliveCheck at h
    simp only [Bool.and_eq_true, Bool.not_eq_true'] at h
    obtain ⟨⟨⟨hf, hr⟩, hz⟩, hc⟩ := h
    refine ⟨hf, hr, hz, ?_⟩
    cases hcl : p.cmdline with
    | args l => rw [hcl] at hc; exact Or.inl ⟨l, rfl, hc⟩
    | accessDenied => exact Or.inr rfl
    | zombieRaised => rw [hcons hcl] at hz; exact absurd hz (by simp)

/-- Live-looking snapshot of a foreign process: running, not a zombie, but
the command line is an unrelated editor invocation. -/
def c6snap : ProcSnapshot :=
  ⟨true, true, false, CmdlineRes.args ["/usr/bin/vim".toList, "notes.txt".toList]⟩

/-- Witness for C6: a concrete foreign process is reported not-alive and
the Registry Record is deleted. -/
theorem C6_witness :
    is_server_running c6snap (some ⟨some 9, none, none, none, none⟩) = (false, none) :=
  (C6_liveness_identity c6snap (some ⟨some 9, none, none, none, none⟩)
      (by intro h; exact absurd h (by decide))).1
    ["/usr/bin/vim".toList, "notes.txt".toList] rfl rfl rfl rfl (by decide)

/-- Claim C8: the Registry Record reader returns the parsed JSON object's
fields when the file holds a JSON dict; interprets a bare-integer file as
`{pid: v, session_id: null, started_at: null}`; and returns None (rather
than raising) for a missing or unparseable file. -/
theorem C8_pidfile_codec (r : RawRead) (v : Int) (d : PidData) :
    (read_pid_data none = none) ∧
    (r.jsonRes = some (JVal.jint v) → r.intRes = some v →
      read_pid_data (some r) =
        some ⟨some v, none, none, none, none⟩) ∧
    (r.jsonRes = some (JVal.jdict d) → read_pid_data (some r) = some d) ∧
    (r.jsonRes = none → r.intRes = none → read_pid_data (some r) = none) := by
  refine ⟨rfl, ?_, ?_, ?_⟩
  · intro h1 h2
    simp [read_pid_data, h1, h2]
  · intro h1
    simp [read_pid_data, h1]
  · intro h1 h2
    simp [read_pid_data, h1, h2]

/-- Witness for C8: a file whose entire content is the bare integer 555
decodes to the legacy record. -/
theorem C8_witness :
    read_pid_data (some ⟨some (JVal.jint 555), some 555⟩) =
      some ⟨some 555, none, none, none, none⟩ :=
  (C8_pidfile_codec ⟨some (JVal.jint 555), some 555⟩ 555
    ⟨none, none, none, none, none⟩).2.1 rfl rfl

/-- Claim C3: every string that is (up to surrounding whitespace and letter
case) a positive decimal integer immediately followed by a unit letter
among m/h/d parses to n·60, n·3600 or n·86400 seconds respectively; every
other string raises `ValueError`; and inside `start` a parse failure exits
before any session is created or any process is spawned. -/
theorem C3_parse_duration_spec :
    (∀ s n u, DurShape s n u → parse_duration s = Except.ok (n * unitMult u)) ∧
    (unitMult 'm' = 60 ∧ unitMult 'h' = 3600 ∧ unitMult 'd' = 86400) ∧
    (∀ s, (¬ ∃ n u, DurShape s n u) → parse_duration s = Except.error ()) ∧
    (∀ env w s, (¬ ∃ n u, DurShape s n u) →
      (start env (some s) w).2.db.sessions = w.db.sessions ∧
      (start env (some s) w).2.spawned = w.spawned ∧
      ((start env (some s) w).1 = StartOutcome.alreadyRunning ∨
       (start env (some s) w).1 = StartOutcome.invalidDuration)) := by
  refine ⟨?_, by decide, parse_error_of_no_shape, ?_⟩
  · intro s n u h
    exact (parse_ok_iff s (n * unitMult u)).mpr ⟨n, u, h, rfl⟩
  · intro env w s h
    have hp := parse_error_of_no_shape s h
    unfold start
    cases hb : w.pidFile.bind (fun d => d.pid) with
    | none => simp [startCore_parse_error env w s hp]
    | some p =>
      by_cases h0 : p = 0
      · simp [h0, startCore_parse_error env w s hp]
      · simp only [h0, if_false]
        by_cases halive : (is_server_running (env.os p) w.pidFile).1 = true
        · simp [halive]
        · simp only [Bool.not_eq_true] at halive
          simp [halive, startCore_parse_error env { w with pidFile := none } s hp]

/-- Witness for C3: `" 5M "` (surrounding ASCII whitespace, uppercase
unit) parses to 300 seconds; so do a leading no-break space before `5m`
and the Arabic-Indic five in `"٥m"`, while the fullwidth digits of
`"５５m"` parse to 3300 seconds. -/
theorem C3_witness :
    parse_duration (" 5M ".toList) = Except.ok 300 ∧
    parse_duration ("\u00A05m".toList) = Except.ok 300 ∧
    parse_duration ("٥m".toList) = Except.ok 300 ∧
    parse_duration ("５５m".toList) = Except.ok 3300 :=
  ⟨C3_parse_duration_spec.1 (" 5M ".toList) 5 'm' ⟨['5'], by decide⟩,
   C3_parse_duration_spec.1 ("\u00A05m".toList) 5 'm' ⟨['5'], by decide⟩,
   C3_parse_duration_spec.1 ("٥m".toList) 5 'm' ⟨['٥'], by decide⟩,
   C3_parse_duration_spec.1 ("５５m".toList) 55 'm' ⟨['５', '５'], by decide⟩⟩

/-- Claim C4: an owner's open session whose most recent visit ended more
than the inactivity timeout before now is closed by `get_or_create` — its
end time is set to now and its duration to its own end minus its start —
and a fresh open session with a different id is created and returned. -/
theorem C4_stale_closed_and_fresh
    (db : DB) (owner : String) (now tmo : Int) (fid : Nat)
    (cur : BSession) (v : PVisit) (ts : TS)
    (hcur : currentSession db owner = some cur)
    (hlv : firstByEndDesc
      (db.visits.filter (fun w => w.session_id == cur.session_id)) = some v)
    (hend : v.end_time = some ts)
    (hstale : ts.t < now - tmo * 60)
    (hfresh : ∀ s ∈ db.sessions, s.session_id ≠ fid) :
    (get_or_create_active_session now fid owner tmo db).1.session_id = fid ∧
    (get_or_create_active_session now fid owner tmo db).1.session_id ≠ cur.session_id ∧
    (get_or_create_active_session now fid owner tmo db).1.end_time = none ∧
    (∃ s ∈ (get_or_create_active_session now fid owner tmo db).2.sessions,
      s.session_id = cur.session_id ∧ s.end_time = some ⟨now, true⟩ ∧
      s.duration = some (now - cur.start_time.t)) := by
  have hcs := currentSession_spec hcur
  have hne : cur.session_id ≠ fid := hfresh cur hcs.1
  have hred : get_or_create_active_session now fid owner tmo db =
      create_new_session now fid owner
        { db with sessions := db.sessions.map (fun s =>
            if s.session_id == cur.session_id
            then calcDuration { cur with end_time := some ⟨now, true⟩ } else s) } := by
    simp only [get_or_create_active_session, hcur, hlv, hend, normAware_t,
      hstale, if_true]
  rw [hred]
  refine ⟨rfl, fun hc => hne hc.symm, rfl, ?_⟩
  refine ⟨calcDuration { cur with end_time := some ⟨now, true⟩ }, ?_, ?_⟩
  · have := List.mem_map_of_mem
      (fun s => if s.session_id == cur.session_id
        then calcDuration { cur with end_time := some ⟨now, true⟩ } else s) hcs.1
    simp only [beq_self_eq_true, if_true] at this
    simp only [create_new_session, List.mem_append]
    exact Or.inl this
  · rw [calcDuration_of_end (e := ⟨now, true⟩) rfl]
    exact ⟨rfl, rfl, rfl⟩

/-- Open session and a stale visit (ended at t=1300) for the C4 witness. -/
def c4cur : BSession := ⟨5, "a@example.com", ⟨1000, true⟩, none, none⟩

/-- Store holding `c4cur` and its single, stale visit. -/
def c4db : DB := ⟨[c4cur], [⟨1, 5, some ⟨1300, false⟩⟩]⟩

/-- Witness for C4: with now=4000 and a 30-minute timeout (cutoff 2200) the
visit that ended at 1300 is stale, so the session is closed at 4000 with
duration 3000 and a fresh session id 6 is returned. -/
theorem C4_witness :
    (get_or_create_active_session 4000 6 "a@example.com" 30 c4db).1.session_id = 6 ∧
    (get_or_create_active_session 4000 6 "a@example.com" 30 c4db).1.session_id ≠ c4cur.session_id ∧
    (get_or_create_active_session 4000 6 "a@example.com" 30 c4db).1.end_time = none ∧
    (∃ s ∈ (get_or_create_active_session 4000 6 "a@example.com" 30 c4db).2.sessions,
      s.session_id = c4cur.session_id ∧ s.end_time = some ⟨4000, true⟩ ∧
      s.duration = some (4000 - c4cur.start_time.t)) :=
  C4_stale_closed_and_fresh c4db "a@example.com" 4000 30 6 c4cur
    ⟨1, 5, some ⟨1300, false⟩⟩ ⟨1300, false⟩ rfl rfl rfl (by decide) (by decide)

/-- Claim C5: while the open session's last activity is within the
inactivity timeout of now, `get_or_create` is idempotent — two successive
calls return the same session id and leave the stored state untouched. -/
theorem C5_idempotent_while_recent
    (db : DB) (owner : String) (now1 now2 tmo : Int) (fid1 fid2 : Nat)
    (cur : BSession) (v : PVisit) (ts : TS)
    (hcur : currentSession db owner = some cur)
    (hlv : firstByEndDesc
      (db.visits.filter (fun w => w.session_id == cur.session_id)) = some v)
    (hend : v.end_time = some ts)
    (hrec1 : now1 - tmo * 60 ≤ ts.t)
    (hrec2 : now2 - tmo * 60 ≤ ts.t) :
    get_or_create_active_session now1 fid1 owner tmo db = (cur, db) ∧
    get_or_create_active_session now2 fid2 owner tmo
      (get_or_create_active_session now1 fid1 owner tmo db).2 = (cur, db) := by
  have h1 := getOrCreate_recent db owner now1 tmo fid1 cur v ts hcur hlv hend hrec1
  have h2 := getOrCreate_recent db owner now2 tmo fid2 cur v ts hcur hlv hend hrec2
  rw [h1]
  exact ⟨rfl, h2⟩

/-- Open session and a recent visit for the C5 witness. -/
def c5cur : BSession := ⟨5, "a@example.com", ⟨1000, true⟩, none, none⟩

/-- Store holding `c5cur` and its single, recent visit. -/
def c5db : DB := ⟨[c5cur], [⟨1, 5, some ⟨1300, false⟩⟩]⟩

/-- Witness for C5: with now=1400 and a 30-minute timeout the visit that
ended at 1300 is recent, so both calls return session 5 and the store is
unchanged. -/
theorem C5_witness :
    get_or_create_active_session 1400 7 "a@example.com" 30 c5db = (c5cur, c5db) ∧
    get_or_create_active_session 1500 8 "a@example.com" 30
      (get_or_create_active_session 1400 7 "a@example.com" 30 c5db).2 = (c5cur, c5db) :=
  C5_idempotent_while_recent c5db "a@example.com" 1400 1500 30 7 8 c5cur
    ⟨1, 5, some ⟨1300, false⟩⟩ ⟨1300, false⟩ rfl rfl rfl (by decide) (by decide)

/-- Claim C10: an open session none of whose recorded visits has an end
timestamp is returned unchanged by `get_or_create`, with no bound on the
session's age — staleness never triggers while last activity is absent. -/
theorem C10_visitless_never_closed
    (db : DB) (owner : String) (now tmo : Int) (fid : Nat) (cur : BSession)
    (hcur : currentSession db owner = some cur)
    (hnov : ∀ v ∈ db.visits, v.session_id = cur.session_id → v.end_time = none) :
    get_or_create_active_session now fid owner tmo db = (cur, db) ∧
    cur.end_time = none := by
  refine ⟨?_, (currentSession_spec hcur).2.2⟩
  cases hlv : firstByEndDesc
      (db.visits.filter (fun w => w.session_id == cur.session_id)) with
  | none => simp [get_or_create_active_session, hcur, hlv]
  | some v =>
    have hm := firstByEndDesc_mem hlv
    rw [List.mem_filter] at hm
    have hvn : v.end_time = none := hnov v hm.1 (by simpa using hm.2)
    simp [get_or_create_active_session, hcur, hlv, hvn]

/-- Very old open session (started at t=10) with one end-less visit. -/
def c10cur : BSession := ⟨8, "b@example.com", ⟨10, true⟩, none, none⟩

/-- Store holding `c10cur` and its single visit without an end time. -/
def c10db : DB := ⟨[c10cur], [⟨1, 8, none⟩]⟩

/-- Witness for C10: at now=999999 — far beyond any timeout — the
visit-less-activity session is returned unchanged. -/
theorem C10_witness :
    get_or_create_active_session 999999 9 "b@example.com" 30 c10db = (c10cur, c10db) ∧
    c10cur.end_time = none :=
  C10_visitless_never_closed c10db "b@example.com" 999999 30 9 c10cur rfl (by decide)

/-- Claim C9: every session produced or mutated by `create`,
`get_or_create` and `end` satisfies the invariant — duration is set iff the
end timestamp is set, and when set it equals end minus start (the
timestamps being normalised to a common timezone reference by `tzNorm`
before subtraction, which never changes the subtracted instants) and is
never negative.  The hypotheses state that the store already satisfies the
invariant and that no stored session starts in the future of the clock. -/
theorem C9_duration_invariant (now : Int) (fid : Nat) (em owner : String)
    (tmo : Int) (sid : Nat) (db : DB)
    (hInv : ∀ s ∈ db.sessions, SessInv s)
    (hstart : ∀ s ∈ db.sessions, s.start_time.t ≤ now) :
    (SessInv (create_new_session now fid em db).1 ∧
      ∀ s ∈ (create_new_session now fid em db).2.sessions, SessInv s) ∧
    (SessInv (get_or_create_active_session now fid owner tmo db).1 ∧
      ∀ s ∈ (get_or_create_active_session now fid owner tmo db).2.sessions,
        SessInv s) ∧
    ((∀ x, (end_session now sid db).1 = some x → SessInv x) ∧
      ∀ s ∈ (end_session now sid db).2.sessions, SessInv s) ∧
    (∀ e st : TS, (tzNorm e st).1.t - (tzNorm e st).2.t = e.t - st.t) := by
  refine ⟨⟨sessInv_open fid em now, ?_⟩,
    getOrCreate_inv now fid owner tmo db hInv hstart,
    endSession_inv now sid db hInv hstart,
    fun e st => by rw [tzNorm_fst_t, tzNorm_snd_t]⟩
  intro s hs
  simp only [create_new_session, List.mem_append, List.mem_singleton] at hs
  rcases hs with hs | hs
  · exact hInv s hs
  · rw [hs]; exact sessInv_open fid em now

/-- Witness for C9: on the empty store, the sessions returned by `create`
and by `get_or_create` satisfy the invariant. -/
theorem C9_witness :
    SessInv (create_new_session 10 2 "a@example.com" ⟨[], []⟩).1 ∧
    SessInv (get_or_create_active_session 10 2 "a@example.com" 30 ⟨[], []⟩).1 :=
  ⟨(C9_duration_invariant 10 2 "a@example.com" "a@example.com" 30 1 ⟨[], []⟩
      (fun _s hs => nomatch hs) (fun _s hs => nomatch hs)).1.1,
   (C9_duration_invariant 10 2 "a@example.com" "a@example.com" 30 1 ⟨[], []⟩
      (fun _s hs => nomatch hs) (fun _s hs => nomatch hs)).2.1.1⟩

/-- Claim C7: whenever the spawned server process is found dead at the
settle re-check (`aliveCheck` false two seconds after the spawn), the start
rolls back completely — the run exits through the failure path, the
Registry Record written at spawn is deleted, and the session speculatively
created before the spawn is closed, so no open session created by that
start remains.  The hypotheses say: any previously recorded pid is falsy or
fails the liveness check (so the run is not refused as already-running), an
owner is configured, the duration argument (if any) parses, the spawn call
itself does not raise, and the fresh session id is not already present. -/
theorem C7_settle_rollback
    (env : StartEnv) (w : World) (durArg : Option (List Char)) (em : String)
    (hnorun : ∀ p, w.pidFile.bind (fun d => d.pid) = some p →
      p = 0 ∨ aliveCheck (env.os p) = false)
    (hmail : env.userEmail = some em)
    (hdur : ∀ s, durArg = some s → ∃ vv, parse_duration s = Except.ok vv)
    (hsp : env.spawnRaises = false)
    (hdead : aliveCheck (env.os2 env.spawnPid) = false)
    (hfresh : ∀ s ∈ w.db.sessions, s.session_id ≠ env.freshSid) :
    (start env durArg w).1 = StartOutcome.dieInSettle ∧
    (start env durArg w).2.pidFile = none ∧
    (∀ s ∈ (start env durArg w).2.db.sessions,
      s.session_id = env.freshSid → s.end_time = some ⟨env.now2, true⟩) ∧
    (∃ s ∈ (start env durArg w).2.db.sessions,
      s.session_id = env.freshSid) := by
  have hmain : ∀ w' : World, w'.db = w.db →
      (startCore env durArg w').1 = StartOutcome.dieInSettle ∧
      (startCore env durArg w').2.pidFile = none ∧
      (∀ s ∈ (startCore env durArg w').2.db.sessions,
        s.session_id = env.freshSid → s.end_time = some ⟨env.now2, true⟩) ∧
      (∃ s ∈ (startCore env durArg w').2.db.sessions,
        s.session_id = env.freshSid) := by
    intro w' hdb
    have hfresh2 : ∀ s ∈ w'.db.sessions, s.session_id ≠ env.freshSid := by
      rw [hdb]; exact hfresh
    cases durArg with
    | none =>
      simp only [startCore, startWithUser, hmail]
      exact startSpawn_dead env none em w' hsp hdead hfresh2
    | some ds =>
      obtain ⟨vv, hpv⟩ := hdur ds rfl
      simp only [startCore, hpv, startWithUser, hmail]
      exact startSpawn_dead env (some vv) em w' hsp hdead hfresh2
  unfold start
  split
  · rename_i p heq
    by_cases h0 : p = 0
    · rw [if_pos h0]
      exact hmain w rfl
    · rw [if_neg h0]
      have hal : aliveCheck (env.os p) = false := (hnorun p heq).resolve_left h0
      simp only [is_server_running, hal, Bool.false_eq_true, if_false]
      exact hmain { w with pidFile := none } rfl
  · exact hmain w rfl

/-- Dead-process snapshot used in the C7 witness. -/
def c7snapDead : ProcSnapshot := ⟨false, false, false, CmdlineRes.args []⟩

/-- Environment for the C7 witness: a configured owner, a spawn that
succeeds, and an OS in which every pid — in particular the spawned one —
is dead. -/
def c7env : StartEnv :=
  { os := fun _ => c7snapDead, os2 := fun _ => c7snapDead,
    now := 100, now2 := 102, freshSid := 1,
    userEmail := some "a@example.com",
    spawnRaises := false, spawnPid := 42, monitorPid := 43 }

/-- Fresh world for the C7 witness: no records, empty store. -/
def c7w : World := ⟨none, none, [], ⟨[], []⟩⟩

/-- Witness for C7: a concrete start whose server dies in the settle window
exits through the failure path, leaves no Registry Record, and its
speculatively created session (id 1) is closed at the re-check time. -/
theorem C7_witness :
    (start c7env none c7w).1 = StartOutcome.dieInSettle ∧
    (start c7env none c7w).2.pidFile = none ∧
    (∀ s ∈ (start c7env none c7w).2.db.sessions,
      s.session_id = 1 → s.end_time = some ⟨102, true⟩) ∧
    (∃ s ∈ (start c7env none c7w).2.db.sessions, s.session_id = 1) :=
  C7_settle_rollback c7env c7w none "a@example.com"
    (fun p hp => Option.noConfusion hp) rfl
    (fun ds hs => Option.noConfusion hs) rfl (by decide)
    (fun s hs => nomatch hs)

